import Mathlib

/-!
Shallow embedding of the market-risk engine core
(backend/app/services/var_service.py, backtest_service.py, risk_service.py).

Conventions of the embedding:
- pandas Series and numpy 1-D arrays of floats become `List Real`, in
  chronological order (index 0 is the oldest observation);
- a DataFrame of k asset-return columns with m rows becomes a column map
  `X : Fin k → Fin m → Real`; where the code slices rows of a DataFrame, the
  frame is carried as a list of rows `List (Fin k → Real)` instead;
- floats become `Real`; the claims under examination concern the
  infinite-precision numerical semantics of the code, not float rounding;
- series are modelled after `dropna()`: missing values are assumed absent, so
  `dropna` is the identity in this embedding;
- `raise ValueError(msg)` becomes `Except.error msg` (or `Option.none` for the
  helpers whose callers treat the exception as absence);
- scipy distribution primitives (`norm.ppf`, `norm.pdf`, `t.fit`, `t.ppf`,
  `t.pdf`, `chi2.cdf`) are opaque numerical routines; they are taken as
  function parameters so every theorem quantifies over them;
- numpy's seeded global random state becomes explicit state threading over an
  abstract state type, with `np.random.seed` as a parameter `seedFn` and
  `np.random.multivariate_normal` as a parameter `drawMVN`.
-/

namespace MarketRisk

open scoped BigOperators

/-! ### Backtest estimation window (backtest_service.backtest_var)

In `backtest_var`, for the i-th date of the backtest tail the code runs
`est_returns = clean_port_returns.loc[:end_loc].iloc[-(lookback + 1):-1]`
where `end_loc` is the label of that date.  On a series with strictly
increasing unique dates, `loc[:end_loc]` is the positional prefix up to and
including position `pos` of the date, so the estimation window is the slice
`positions max(0, pos - lookback) .. pos - 1`. -/

/-- The estimation window `clean.loc[:end_loc].iloc[-(lookback + 1):-1]` of
`backtest_var`, positionally: take the prefix through position `pos`
(`loc[:end_loc]` inclusive), drop its last element (`:-1`), keep the last
`lookback` elements (`-(lookback + 1):`). -/
def estWindow (r : List ℝ) (lookback pos : ℕ) : List ℝ :=
  let upto := (r.take (pos + 1)).dropLast
  upto.drop (upto.length - lookback)

/-- One recorded row of the backtest series: the realized return at the date,
the threshold `-var_loss`, and the exception flag `realized < threshold`. -/
structure BacktestRow where
  realized : ℝ
  threshold : ℝ
  exception : Bool

/-- The per-date loop of `backtest_var` over the cleaned portfolio returns
`r` (the estimator `est` stands for the historical / parametric / Monte Carlo
VaR estimate computed from the estimation window).  `eb` is
`effective_backtest`; the i-th backtest date sits at position
`r.length - eb + i`.  Dates whose window has fewer than 10 observations are
skipped (`continue`).  The code then enforces the positive-loss convention
(`if var_loss < 0: var_loss = abs(var_loss)`), forms `threshold = -var_loss`
and flags an exception when the realized return is strictly below it. -/
noncomputable def backtestRows (r : List ℝ) (est : List ℝ → ℝ)
    (lookback eb : ℕ) : List BacktestRow :=
  (List.range eb).filterMap (fun i =>
    let pos := r.length - eb + i
    let w := estWindow r lookback pos
    if w.length < 10 then none
    else
      let v := est w
      let varLoss := if v < 0 then |v| else v
      let realized := r.getD pos 0
      let threshold := -varLoss
      some ⟨realized, threshold, decide (realized < threshold)⟩)

/-! ### Horizon aggregation (var_service._aggregate_returns) -/

/-- `_aggregate_returns`: identity (after dropna, which the clean-series model
makes the identity) for `horizon_days <= 1`; otherwise the rolling window of
exactly `horizon_days` observations, summed for log returns and compounded
(`prod (1 + r) - 1`) otherwise, with partial windows dropped by `dropna`. -/
def aggregateReturns (data : List ℝ) (returnType : String)
    (horizonDays : ℕ) : List ℝ :=
  if horizonDays ≤ 1 then data
  else
    (List.range (data.length + 1 - horizonDays)).map (fun i =>
      let window := (data.drop i).take horizonDays
      if returnType = "log" then window.sum
      else ((window.map (fun r => 1 + r)).prod) - 1)

/-! ### Means, variances and covariances (numpy / pandas, ddof = 1)

`Real` division by zero is zero, which conveniently absorbs the degenerate
0-length and 1-length denominators the code leaves to IEEE NaN. -/

/-- Mean of a list, `sum / len`. -/
noncomputable def listMean (l : List ℝ) : ℝ := l.sum / l.length

/-- pandas `Series.var()` (ddof = 1): sum of squared deviations over `n - 1`. -/
noncomputable def listSampleVar (l : List ℝ) : ℝ :=
  ((l.map (fun x => (x - listMean l) ^ 2)).sum) / ((l.length : ℝ) - 1)

/-- pandas `Series.std()` (ddof = 1). -/
noncomputable def listStd (l : List ℝ) : ℝ := Real.sqrt (listSampleVar l)

/-- Mean of a column given as a function on row indices. -/
noncomputable def sampleMean {m : ℕ} (x : Fin m → ℝ) : ℝ := (∑ t, x t) / m

/-- pandas `DataFrame.cov()` entry (ddof = 1) for two columns. -/
noncomputable def sampleCov {m : ℕ} (x y : Fin m → ℝ) : ℝ :=
  (∑ t, (x t - sampleMean x) * (y t - sampleMean y)) / ((m : ℝ) - 1)

/-! ### Quantiles (numpy) -/

/-- Insert into a list sorted ascending (stand-in for numpy sorting). -/
noncomputable def insertReal (x : ℝ) : List ℝ → List ℝ
  | [] => [x]
  | y :: ys => if x ≤ y then x :: y :: ys else y :: insertReal x ys

/-- Ascending sort of a list of reals (stand-in for `np.sort`). -/
noncomputable def sortReals : List ℝ → List ℝ
  | [] => []
  | x :: xs => insertReal x (sortReals xs)

/-- `np.quantile(values, q)` with the default linear interpolation method:
on the ascending sort `s`, with `h = q * (n - 1)`, interpolate between
`s[floor h]` and `s[floor h + 1]`.  (numpy raises on an empty array and on
`q` outside `[0, 1]`; the embedding is total and its callers guard those.) -/
noncomputable def npQuantile (values : List ℝ) (q : ℝ) : ℝ :=
  let n := values.length
  let s := sortReals values
  let h : ℝ := q * ((n : ℝ) - 1)
  let j : ℕ := (⌊h⌋).toNat
  if j + 1 < n then s.getD j 0 + (h - (j : ℝ)) * (s.getD (j + 1) 0 - s.getD j 0)
  else s.getD (n - 1) 0

/-- Stable insertion into a value-keyed pair list, ascending by key
(stand-in for `np.argsort` applied to values and weights together). -/
noncomputable def insertPair (p : ℝ × ℝ) : List (ℝ × ℝ) → List (ℝ × ℝ)
  | [] => [p]
  | q :: rest => if p.1 ≤ q.1 then p :: q :: rest else q :: insertPair p rest

/-- Sort (value, weight) pairs ascending by value. -/
noncomputable def sortPairs : List (ℝ × ℝ) → List (ℝ × ℝ)
  | [] => []
  | p :: rest => insertPair p (sortPairs rest)

/-- `np.cumsum`. -/
def cumsumFrom (acc : ℝ) : List ℝ → List ℝ
  | [] => []
  | x :: xs => (acc + x) :: cumsumFrom (acc + x) xs

/-- `np.cumsum` of a list. -/
def cumsum (l : List ℝ) : List ℝ := cumsumFrom 0 l

/-- `np.interp(x, xp, fp)` on the point list `xp.zip fp` with `xp`
increasing: clamp to the first / last value outside the range, linear
interpolation inside. -/
noncomputable def interp (x : ℝ) : List (ℝ × ℝ) → ℝ
  | [] => 0
  | [(_, fy)] => fy
  | (x1, y1) :: (x2, y2) :: rest =>
      if x ≤ x1 then y1
      else if x ≤ x2 then y1 + (x - x1) / (x2 - x1) * (y2 - y1)
      else interp x ((x2, y2) :: rest)

/-- `var_service._weighted_quantile`: raises (`none`) on an empty value
array; falls back to the plain `np.quantile` when weights are absent, have a
different shape, or have non-positive sum; otherwise sorts observations by
value, clamps the sorted weights at 0, builds the weight-normalized
cumulative distribution and interpolates at `q`. -/
noncomputable def weightedQuantile (values : List ℝ)
    (weights : Option (List ℝ)) (q : ℝ) : Option ℝ :=
  if values.isEmpty then none
  else
    match weights with
    | none => some (npQuantile values q)
    | some w =>
      if w.length ≠ values.length ∨ w.sum ≤ 0 then some (npQuantile values q)
      else
        let sorted := sortPairs (values.zip w)
        let vSorted := sorted.map (fun p => p.1)
        let wSorted := sorted.map (fun p => max p.2 0)
        let cdf := (cumsum wSorted).map (fun c => c / wSorted.sum)
        some (interp q (cdf.zip vSorted))

/-- `var_service._weighted_cvar`: mean (weighted when weights are valid) of
the observations at or below the quantile, negated; falls back to the
negated quantile on an empty tail or non-positive clamped tail weight. -/
noncomputable def weightedCvar (values : List ℝ) (weights : Option (List ℝ))
    (quantileVal : ℝ) : ℝ :=
  match weights with
  | none =>
      let tail := values.filter (fun x => decide (x ≤ quantileVal))
      if tail.isEmpty then -quantileVal else -(listMean tail)
  | some w =>
      let tailPairs := (values.zip w).filter (fun p => decide (p.1 ≤ quantileVal))
      if tailPairs.isEmpty then -quantileVal
      else
        let tailW := tailPairs.map (fun p => max p.2 0)
        let denom := tailW.sum
        if denom ≤ 0 then -quantileVal
        else -(((tailPairs.map (fun p => p.1 * max p.2 0)).sum) / denom)

/-- EWMA weights of `historical_var_cvar`: the element at position `i`
(oldest first) receives `(1 - lambda) * lambda ^ (n - 1 - i)`, then the
vector is normalized to sum to 1. -/
noncomputable def ewmaWeights (n : ℕ) (lam : ℝ) : List ℝ :=
  let raw := (List.range n).map (fun i => (1 - lam) * lam ^ (n - 1 - i))
  raw.map (fun x => x / raw.sum)

/-- `var_service.historical_var_cvar`: VaR is the negated alpha-quantile of
the (optionally EWMA-weighted) sample, CVaR the negated tail mean.  The
`none` case propagates the empty-array `ValueError` of the quantile. -/
noncomputable def historicalVarCvar (returns : List ℝ) (confidence : ℝ)
    (weighting : String) (hsLambda : ℝ) : Option (ℝ × ℝ) :=
  let alpha := 1 - confidence
  let weights := if weighting = "ewma"
    then some (ewmaWeights returns.length hsLambda) else none
  match weightedQuantile returns weights alpha with
  | none => none
  | some quantileVal =>
      some (-quantileVal, weightedCvar returns weights quantileVal)

/-! ### Kupiec proportion-of-failures test (backtest_service) -/

/-- `backtest_service.kupiec_pof_test`, with `chi2cdf` standing for
`scipy.stats.chi2.cdf(., df = 1)`.  Returns `none` for an empty sample;
otherwise clamps the expected and observed exception rates into
`[eps, 1 - eps]` and forms the likelihood ratio statistic and its p-value. -/
noncomputable def kupiecPofTest (chi2cdf : ℝ → ℝ) (n exceptions : ℕ)
    (confidence eps : ℝ) : Option (ℝ × ℝ) :=
  if n = 0 then none
  else
    let expectedRate := max eps (min (1 - eps) (1 - confidence))
    let exceptionRate := max eps (min (1 - eps) ((exceptions : ℝ) / n))
    let lr := -2 * ((exceptions : ℝ) * Real.log expectedRate
        + ((n : ℝ) - exceptions) * Real.log (1 - expectedRate)
        - (exceptions : ℝ) * Real.log exceptionRate
        - ((n : ℝ) - exceptions) * Real.log (1 - exceptionRate))
    some (lr, 1 - chi2cdf lr)

/-! ### Parametric VaR / CVaR (var_service.parametric_var_cvar) -/

/-- The scipy distribution primitives used by the parametric method, taken
as opaque parameters: `normPpf`/`normPdf` are the standard normal quantile
and density, `tFit` the Student-t maximum-likelihood fit returning
(df, loc, scale), `tPpf x df` and `tPdf x df` the Student-t quantile and
density with `df` degrees of freedom. -/
structure Dists where
  normPpf : ℝ → ℝ
  normPdf : ℝ → ℝ
  tFit : List ℝ → ℝ × ℝ × ℝ
  tPpf : ℝ → ℝ → ℝ
  tPdf : ℝ → ℝ → ℝ

/-- `var_service._student_t_es`: the Student-t expected-shortfall
multiplier `tPdf(z, df) * (df + z ^ 2) / ((df - 1) * alpha)`. -/
noncomputable def studentTEs (D : Dists) (df zAlpha alpha : ℝ) : ℝ :=
  (D.tPdf zAlpha df * (df + zAlpha ^ 2)) / ((df - 1) * alpha)

/-- `var_service.parametric_var_cvar`: fit `mu` (0 unless drift is
included) and `sigma = std`; degenerate `sigma <= 0` yields the zero result
with a warning; `student_t` uses the fitted (df, loc, scale) and the
expected-shortfall multiplier; every other distribution name takes the
normal closed forms.  Returns (var, cvar, warnings emitted). -/
noncomputable def parametricVarCvar (D : Dists) (returns : List ℝ)
    (confidence : ℝ) (dist : String) (drift : String) :
    ℝ × ℝ × List String :=
  let alpha := 1 - confidence
  let mu := if drift = "include" then listMean returns else 0
  let sigma := listStd returns
  if sigma ≤ 0 then
    (0, 0, ["Return volatility is zero; VaR set to 0."])
  else if dist = "student_t" then
    let fitted := D.tFit returns
    let df := fitted.1
    let loc := fitted.2.1
    let scale := fitted.2.2
    let zAlpha := D.tPpf alpha df
    let var := -(loc + scale * zAlpha)
    let warns := if df ≤ 2
      then ["Student-t degrees of freedom <= 2; ES may be unstable."] else []
    let cvar := -(loc - scale * studentTEs D df zAlpha alpha)
    (var, cvar, warns)
  else
    let zAlpha := D.normPpf alpha
    (-(mu + sigma * zAlpha), -(mu - sigma * D.normPdf zAlpha / alpha), [])

/-! ### Component VaR (var_service.component_var_normal) -/

/-- One row of the component-VaR decomposition (the symbol column of the
source is positional here). -/
structure ComponentEntry where
  weight : ℝ
  marginalVar : ℝ
  componentVar : ℝ

/-- `var_service.component_var_normal` on the column map `X` of the asset
return frame and the weight vector `w` (the source builds `w` from the
weights dict over the frame columns, absent symbols contributing 0).
Returns `none` for an empty frame or a non-positive portfolio variance
`w^T Sigma w`; otherwise the per-asset marginal `z * (Sigma w)_i / sigma_p`
and component `w_i * marginal_i` with `z = -normPpf alpha`. -/
noncomputable def componentVarNormal (normPpf : ℝ → ℝ) {k m : ℕ}
    (X : Fin k → Fin m → ℝ) (w : Fin k → ℝ) (confidence : ℝ)
    (horizonDays : ℕ) : Option (List ComponentEntry) :=
  if k = 0 ∨ m = 0 then none
  else
    let cov : Fin k → Fin k → ℝ := fun i j => sampleCov (X i) (X j) * horizonDays
    let portfolioVar := ∑ i, ∑ j, w i * cov i j * w j
    if portfolioVar ≤ 0 then none
    else
      let portfolioSigma := Real.sqrt portfolioVar
      let alpha := 1 - confidence
      let z := -(normPpf alpha)
      let marginal : Fin k → ℝ := fun i => (∑ j, cov i j * w j) / portfolioSigma
      some (List.ofFn (fun i => ⟨w i, z * marginal i, w i * (z * marginal i)⟩))

/-! ### Risk contributions (risk_service.compute_risk_metrics) -/

/-- One row of the risk-contribution block of `compute_risk_metrics`. -/
structure ContributionEntry where
  weight : ℝ
  mctr : ℝ
  cctr : ℝ
  pctCctr : ℝ

/-- Annualized portfolio variance `w^T (Sigma * ann_days) w` used by the
risk-contribution block. -/
noncomputable def portVarAnn {k m : ℕ} (X : Fin k → Fin m → ℝ)
    (w : Fin k → ℝ) (annDays : ℕ) : ℝ :=
  ∑ i, ∑ j, w i * (sampleCov (X i) (X j) * annDays) * w j

/-- The risk-contribution block of `compute_risk_metrics`: with positive
annualized portfolio variance, marginal contribution
`(Sigma_ann w)_i / sigma_p`, component `w_i * marginal_i`, percentage
`component_i / sigma_p`; otherwise every contribution is reported as 0. -/
noncomputable def riskContributions {k m : ℕ} (X : Fin k → Fin m → ℝ)
    (w : Fin k → ℝ) (annDays : ℕ) : List ContributionEntry :=
  let covAnn : Fin k → Fin k → ℝ := fun i j => sampleCov (X i) (X j) * annDays
  let portVar := portVarAnn X w annDays
  let portVol := if 0 < portVar then Real.sqrt portVar else 0
  if 0 < portVol then
    let marginal : Fin k → ℝ := fun i => (∑ j, covAnn i j * w j) / portVol
    List.ofFn (fun i => ⟨w i, marginal i, w i * marginal i, (w i * marginal i) / portVol⟩)
  else
    List.ofFn (fun i : Fin k => ⟨w i, 0, 0, 0⟩)

/-! ### Monte Carlo VaR / CVaR (var_service.monte_carlo_var_cvar) -/

/-- The hard cap on Monte Carlo simulation count. -/
def MCSimCap : ℕ := 200000

/-- `np.histogram(series, bins)`: equal-width bins between the minimum and
the maximum, counts per bin with the last bin closed on the right. -/
noncomputable def buildHistogram (xs : List ℝ) (bins : ℕ) :
    List ℝ × List ℕ :=
  let lo := xs.foldr min (xs.headD 0)
  let hi := xs.foldr max (xs.headD 0)
  let edges := (List.range (bins + 1)).map
    (fun i => lo + (hi - lo) * (i : ℝ) / (bins : ℝ))
  let counts := (List.range bins).map (fun i =>
    let a := lo + (hi - lo) * (i : ℝ) / (bins : ℝ)
    let b := lo + (hi - lo) * ((i : ℝ) + 1) / (bins : ℝ)
    if i + 1 = bins then (xs.filter (fun x => decide (a ≤ x ∧ x ≤ b))).length
    else (xs.filter (fun x => decide (a ≤ x ∧ x < b))).length)
  (edges, counts)

/-- `var_service.monte_carlo_var_cvar`.  numpy's global random state is an
explicit value of the abstract type `σ`: `seedFn` is `np.random.seed` and
`drawMVN state mean cov n` is `np.random.multivariate_normal(mean, cov, n)`
run in `state`, returning the drawn rows and the advanced state.  The
incoming `rngState` is the ambient global state at call time; the function
re-seeds before drawing.  Returns ((var, cvar, simulated portfolio returns,
simulations run), final state). -/
noncomputable def monteCarloVarCvar {σ : Type} {k m : ℕ}
    (seedFn : ℕ → σ)
    (drawMVN : σ → (Fin k → ℝ) → (Fin k → Fin k → ℝ) → ℕ → List (Fin k → ℝ) × σ)
    (X : Fin k → Fin m → ℝ) (w : Fin k → ℝ) (confidence : ℝ)
    (horizonDays : ℕ) (nSims : ℕ) (seed : ℕ) (drift : String)
    (returnType : String) (rngState : σ) :
    (ℝ × ℝ × List ℝ × ℕ) × σ :=
  let nSimsCapped := min nSims MCSimCap
  let seeded := seedFn seed
  let meanVector : Fin k → ℝ :=
    if drift = "ignore" then (fun _ => 0) else (fun i => sampleMean (X i))
  let meanScaled : Fin k → ℝ := fun i => meanVector i * horizonDays
  let covScaled : Fin k → Fin k → ℝ :=
    fun i j => sampleCov (X i) (X j) * horizonDays
  let drawn := drawMVN seeded meanScaled covScaled nSimsCapped
  let portfolioSims : List ℝ := drawn.1.map (fun row => ∑ i, row i * w i)
  let simForMetrics :=
    if returnType = "log" then portfolioSims else portfolioSims
  let alpha := 1 - confidence
  let quantileVal := npQuantile simForMetrics alpha
  let var := -quantileVal
  let tailReturns := simForMetrics.filter (fun x => decide (x ≤ quantileVal))
  let cvar := if tailReturns.length ≠ 0 then -(listMean tailReturns) else var
  ((var, cvar, simForMetrics, nSimsCapped), drawn.2)

/-! ### compute_var (var_service.compute_var) -/

/-- pandas `.tail(n)`: the last `n` rows. -/
def listTail (l : List ℝ) (n : ℕ) : List ℝ := l.drop (l.length - n)

/-- pandas `.tail(n)` on a row list. -/
def rowsTail {k : ℕ} (l : List (Fin k → ℝ)) (n : ℕ) : List (Fin k → ℝ) :=
  l.drop (l.length - n)

/-- Column view of an asset return frame carried as a list of rows. -/
def matrixOfRows {k : ℕ} (rows : List (Fin k → ℝ)) :
    Fin k → Fin rows.length → ℝ :=
  fun i t => rows.get t i

/-- Python truthiness of `lookback or len(portfolio_returns)`: a missing
lookback and a zero lookback (0 is falsy) both fall back to the full series
length. -/
def effectiveLookbackOf (lookback : Option ℕ) (n : ℕ) : ℕ :=
  match lookback with
  | none => n
  | some l => if l = 0 then n else l

/-- The result dictionary of `compute_var` (the date strings and the
metadata dictionary of the source are bookkeeping over the same values and
are not carried; the rolling block keeps, per rolling date, the pair of the
window VaR and the realized aggregated return). -/
structure VarOutcome where
  method : String
  confidence : ℝ
  var : ℝ
  cvar : ℝ
  varAmount : Option ℝ
  cvarAmount : Option ℝ
  histogramRealized : List ℝ × List ℕ
  histogramSimulated : Option (List ℝ × List ℕ)
  rolling : Option (List (ℝ × ℝ))
  returns : List ℝ
  warnings : List String
  contributionsVar : Option (List ComponentEntry)

/-- The rolling historical / parametric series of `compute_var`: windows of
the adaptive size over the aggregated series, per-window VaR next to the
realized value, failures skipped. -/
noncomputable def rollingVarSeries (D : Dists) (seriesForRoll : List ℝ)
    (method : String) (confidence : ℝ) (parametricDist drift : String)
    (hsWeighting : String) (hsLambda : ℝ) (rollingWindow : ℕ) :
    Option (List (ℝ × ℝ)) :=
  if 2 < seriesForRoll.length then
    let adaptiveWindow :=
      max 5 (min rollingWindow (max 2 (seriesForRoll.length / 2)))
    let entries := (List.range (seriesForRoll.length - adaptiveWindow)).filterMap
      (fun idx =>
        let i := adaptiveWindow + idx
        let windowReturns := (seriesForRoll.drop (i - adaptiveWindow)).take adaptiveWindow
        let est : Option ℝ :=
          if method = "historical" then
            (historicalVarCvar windowReturns confidence hsWeighting hsLambda).map
              (fun p => p.1)
          else some (parametricVarCvar D windowReturns confidence parametricDist drift).1
        est.map (fun v => (v, seriesForRoll.getD i 0)))
    if entries.isEmpty then none else some entries
  else none

/-- `var_service.compute_var`, over the clean portfolio return series and the
optional asset return frame (as rows) and weight vector.  Mirrors the
source: trim to the effective lookback, aggregate to the horizon, fail on an
empty aggregated sample, dispatch on the method string (unknown methods
fail), collect warnings, rolling series, histograms and currency amounts. -/
noncomputable def computeVar {σ : Type} {k : ℕ} (D : Dists)
    (seedFn : ℕ → σ)
    (drawMVN : σ → (Fin k → ℝ) → (Fin k → Fin k → ℝ) → ℕ → List (Fin k → ℝ) × σ)
    (portfolioReturns : List ℝ) (assetReturns : Option (List (Fin k → ℝ)))
    (weights : Option (Fin k → ℝ)) (method : String) (confidence : ℝ)
    (lookback : Option ℕ) (mcSims : ℕ) (seed : ℕ) (returnType : String)
    (horizonDays : ℕ) (drift : String) (parametricDist : String)
    (hsWeighting : String) (hsLambda : ℝ) (portfolioValue : Option ℝ)
    (rollingWindow : ℕ) (rngState : σ) : Except String VarOutcome :=
  let effectiveLookback := effectiveLookbackOf lookback portfolioReturns.length
  let baseReturns := listTail portfolioReturns effectiveLookback
  let baseAssetReturns := assetReturns.map (fun rows => rowsTail rows effectiveLookback)
  let aggregated := aggregateReturns baseReturns returnType horizonDays
  if aggregated.isEmpty then
    .error ("Insufficient return data for VaR calculation")
  else
    let histogramRealized := buildHistogram aggregated 50
    let warnings0 : List String :=
      (if aggregated.length < 50
        then ["Effective sample size < 50; results may be unstable."] else []) ++
      (if 1 < horizonDays
        then ["Horizon scaling uses rolling aggregation and sqrt(h) approximations."]
        else [])
    let dispatched :
        Except String (ℝ × ℝ × List String × Option (List ℝ × List ℕ)
          × Option (List ComponentEntry)) :=
      if method = "historical" then
        match historicalVarCvar aggregated confidence hsWeighting hsLambda with
        | none => .error ("Cannot compute quantile on empty array")
        | some vc => .ok (vc.1, vc.2, [], none, none)
      else if method = "parametric" then
        let fitted := parametricVarCvar D aggregated confidence parametricDist drift
        -- contributions only when both the asset frame and the weights are
        -- present (the source guards on base_asset_returns and weights)
        let contributions := baseAssetReturns.elim none (fun rows =>
          weights.elim none (fun w =>
            componentVarNormal D.normPpf (matrixOfRows rows) w confidence
              horizonDays))
        .ok (fitted.1, fitted.2.1, fitted.2.2, none, contributions)
      else if method = "monte_carlo" then
        if baseAssetReturns = none ∨ weights = none then
          .error ("Monte Carlo requires asset_returns and weights")
        else
          let rows := baseAssetReturns.getD []
          let w := weights.getD (fun _ => 0)
          let mc := monteCarloVarCvar seedFn drawMVN (matrixOfRows rows) w
            confidence horizonDays mcSims seed drift returnType rngState
          .ok (mc.1.1, mc.1.2.1, [],
            some (buildHistogram mc.1.2.2.1 50), none)
      else .error ("Unknown VaR method: " ++ method)
    match dispatched with
    | .error e => .error e
    | .ok (var, cvar, methodWarnings, histogramSimulated, contributionsVar) =>
      let warnings1 := warnings0 ++ methodWarnings ++
        (if MCSimCap < mcSims
          then ["Monte Carlo sims capped to 200,000."] else []) ++
        (if method = "monte_carlo" ∧ mcSims < 5000
          then ["Monte Carlo simulations are below 5,000; results may be noisy."]
          else [])
      let rolling :=
        if (method = "historical" ∨ method = "parametric") ∧ rollingWindow ≠ 0
            ∧ horizonDays < baseReturns.length then
          rollingVarSeries D (aggregateReturns baseReturns returnType horizonDays)
            method confidence parametricDist drift hsWeighting hsLambda rollingWindow
        else none
      .ok ⟨method, confidence, var, cvar,
        portfolioValue.map (fun pv => var * pv),
        portfolioValue.map (fun pv => cvar * pv),
        histogramRealized, histogramSimulated, rolling, aggregated,
        warnings1, contributionsVar⟩

/-- A trivial instantiation of the scipy distribution parameters, used to
evaluate the embedding at concrete inputs. -/
noncomputable def trivDists : Dists :=
  ⟨fun _ => 0, fun _ => 0, fun _ => (0, 0, 0), fun _ _ => 0, fun _ _ => 0⟩

/-- Trivial random state over Unit: seeding is constant. -/
def unitSeed : ℕ → Unit := fun _ => ()

/-- Trivial multivariate-normal draw over Unit state: no samples drawn. -/
def unitDraw : Unit → (Fin 1 → ℝ) → (Fin 1 → Fin 1 → ℝ) → ℕ →
    List (Fin 1 → ℝ) × Unit := fun s _ _ _ => ([], s)

/-! ## Helper lemmas -/

/-- parametric_var_cvar reaches the normal closed forms for every
distribution name other than student_t: an unknown distribution is treated
as normal, not rejected. -/
theorem parametricVarCvar_dist_fallback (D : Dists) (returns : List ℝ)
    (confidence : ℝ) (dist drift : String) (hd : ¬dist = "student_t") :
    parametricVarCvar D returns confidence dist drift
      = parametricVarCvar D returns confidence ("normal") drift := by
  have hnormal : ¬(("normal" : String) = "student_t") := by decide
  simp only [parametricVarCvar, if_neg hd, if_neg hnormal]

theorem take_succ_dropLast {α : Type} (r : List α) (pos : ℕ)
    (h : pos < r.length) : (r.take (pos + 1)).dropLast = r.take pos := by
  rw [List.dropLast_eq_take, List.take_take, List.length_take]
  have : (pos + 1) ⊓ r.length = pos + 1 := by omega
  rw [this]
  have : (pos + 1 - 1) ⊓ (pos + 1) = pos := by omega
  rw [this]

theorem take_set_self {α : Type} (r : List α) (pos : ℕ) (v : α) :
    (r.set pos v).take pos = r.take pos := by
  apply List.ext_getElem
  · simp [List.length_set]
  · intro n h1 h2
    simp only [List.length_take, List.length_set] at h1
    rw [List.getElem_take, List.getElem_take, List.getElem_set_ne (by omega)]

/-- The weighted quantile never fails on a non-empty value array: every
branch past the empty check returns a value. -/
theorem weightedQuantile_isSome (values : List ℝ) (ws : Option (List ℝ))
    (q : ℝ) (hne : values ≠ []) :
    ∃ v, weightedQuantile values ws q = some v := by
  have hE : values.isEmpty = false := List.isEmpty_eq_false.mpr hne
  rw [weightedQuantile.eq_def, hE]
  simp only [Bool.false_eq_true, if_false]
  cases ws with
  | none => exact ⟨_, rfl⟩
  | some w =>
      dsimp only
      split
      · exact ⟨_, rfl⟩
      · exact ⟨_, rfl⟩

/-- historical_var_cvar never fails on a non-empty return sample. -/
theorem historicalVarCvar_isSome (returns : List ℝ) (confidence : ℝ)
    (weighting : String) (hsLambda : ℝ) (hne : returns ≠ []) :
    ∃ p, historicalVarCvar returns confidence weighting hsLambda = some p := by
  simp only [historicalVarCvar]
  obtain ⟨v, hv⟩ := weightedQuantile_isSome returns
    (if weighting = "ewma" then some (ewmaWeights returns.length hsLambda)
      else none) (1 - confidence) hne
  rw [hv]
  exact ⟨_, rfl⟩

theorem listMean_ofFn {m : ℕ} (f : Fin m → ℝ) :
    listMean (List.ofFn f) = sampleMean f := by
  rw [listMean, sampleMean, List.sum_ofFn, List.length_ofFn]

theorem listSampleVar_ofFn {m : ℕ} (f : Fin m → ℝ) :
    listSampleVar (List.ofFn f) = sampleCov f f := by
  rw [listSampleVar, sampleCov, List.map_ofFn, List.sum_ofFn, List.length_ofFn,
    listMean_ofFn]
  congr 1
  refine Finset.sum_congr rfl fun t _ => ?_
  simp only [Function.comp]
  ring

theorem sampleMean_weighted {k m : ℕ} (X : Fin k → Fin m → ℝ)
    (w : Fin k → ℝ) :
    sampleMean (fun t => ∑ i, w i * X i t) = ∑ i, w i * sampleMean (X i) := by
  unfold sampleMean
  rw [Finset.sum_comm, Finset.sum_div]
  refine Finset.sum_congr rfl fun i _ => ?_
  rw [← Finset.mul_sum, mul_div_assoc]

/-- Sample covariance is a bilinear form: the sample variance of the
weighted sum of the columns is the weighted double sum of the pairwise
sample covariances.  This is the algebraic heart of the component-VaR and
risk-contribution additivity identities. -/
theorem sampleCov_weighted_self {k m : ℕ} (X : Fin k → Fin m → ℝ)
    (w : Fin k → ℝ) :
    sampleCov (fun t => ∑ i, w i * X i t) (fun t => ∑ i, w i * X i t)
      = ∑ i, ∑ j, w i * sampleCov (X i) (X j) * w j := by
  have hdev : ∀ t, (∑ i, w i * X i t) - sampleMean (fun t => ∑ i, w i * X i t)
      = ∑ i, w i * (X i t - sampleMean (X i)) := by
    intro t
    rw [sampleMean_weighted X w, ← Finset.sum_sub_distrib]
    exact Finset.sum_congr rfl fun i _ => (mul_sub _ _ _).symm
  have hnum : (∑ t, ((∑ i, w i * X i t) - sampleMean (fun t => ∑ i, w i * X i t))
        * ((∑ i, w i * X i t) - sampleMean (fun t => ∑ i, w i * X i t)))
      = ∑ i, ∑ j, (w i * w j)
          * ∑ t, (X i t - sampleMean (X i)) * (X j t - sampleMean (X j)) := by
    calc (∑ t, ((∑ i, w i * X i t) - sampleMean (fun t => ∑ i, w i * X i t))
          * ((∑ i, w i * X i t) - sampleMean (fun t => ∑ i, w i * X i t)))
        = ∑ t, (∑ i, w i * (X i t - sampleMean (X i)))
            * (∑ j, w j * (X j t - sampleMean (X j))) := by
          refine Finset.sum_congr rfl fun t _ => ?_
          rw [hdev t]
      _ = ∑ t, ∑ i, ∑ j, (w i * (X i t - sampleMean (X i)))
            * (w j * (X j t - sampleMean (X j))) := by
          refine Finset.sum_congr rfl fun t _ => ?_
          exact Finset.sum_mul_sum _ _ _ _
      _ = ∑ i, ∑ t, ∑ j, (w i * (X i t - sampleMean (X i)))
            * (w j * (X j t - sampleMean (X j))) := Finset.sum_comm
      _ = ∑ i, ∑ j, ∑ t, (w i * (X i t - sampleMean (X i)))
            * (w j * (X j t - sampleMean (X j))) := by
          refine Finset.sum_congr rfl fun i _ => Finset.sum_comm
      _ = ∑ i, ∑ j, (w i * w j)
            * ∑ t, (X i t - sampleMean (X i)) * (X j t - sampleMean (X j)) := by
          refine Finset.sum_congr rfl fun i _ => Finset.sum_congr rfl fun j _ => ?_
          rw [Finset.mul_sum]
          exact Finset.sum_congr rfl fun t _ => by ring
  simp only [sampleCov]
  rw [hnum, Finset.sum_div]
  refine Finset.sum_congr rfl fun i _ => ?_
  rw [Finset.sum_div]
  refine Finset.sum_congr rfl fun j _ => ?_
  rw [mul_div_assoc]
  ring

/-! ## Claim theorems -/

/-- C1: in backtest_var, the estimation window for the date at position
`pos` is a suffix of the strict prefix of the cleaned series before `pos`
(only strictly prior observations), it is unchanged when the return at
`pos` itself is replaced by any value, and consequently any VaR estimator
applied to it — hence the VaR estimate used to judge that date — is
unaffected by the value of the return at that date. -/
theorem backtest_no_lookahead (r : List ℝ) (lookback pos : ℕ) (v : ℝ)
    (hpos : pos < r.length) :
    estWindow r lookback pos <:+ r.take pos ∧
    estWindow (r.set pos v) lookback pos = estWindow r lookback pos ∧
    ∀ est : List ℝ → ℝ,
      est (estWindow (r.set pos v) lookback pos)
        = est (estWindow r lookback pos) := by
  have hwin : ∀ s : List ℝ, s.length = r.length →
      s.take pos = r.take pos → estWindow s lookback pos = estWindow r lookback pos := by
    intro s hslen hstake
    unfold estWindow
    rw [take_succ_dropLast s pos (by omega), take_succ_dropLast r pos hpos, hstake]
  have hset : estWindow (r.set pos v) lookback pos = estWindow r lookback pos :=
    hwin (r.set pos v) (List.length_set r pos v) (take_set_self r pos v)
  refine ⟨?_, hset, fun est => by rw [hset]⟩
  unfold estWindow
  rw [take_succ_dropLast r pos hpos]
  exact List.drop_suffix _ _

/-- C1 witness. -/
theorem backtest_no_lookahead_witness :
    estWindow (([1, 2, 3] : List ℝ).set 2 99) 1 2 = estWindow [1, 2, 3] 1 2 :=
  (backtest_no_lookahead [1, 2, 3] 1 2 99 (by simp)).2.1

/-- C10: every row recorded by the backtest loop carries a threshold
`-var_loss <= 0` (the estimated VaR loss is forced non-negative before the
threshold is formed), so a row can be flagged as an exception only when its
realized return is strictly negative. -/
theorem backtest_threshold_nonpositive (r : List ℝ) (est : List ℝ → ℝ)
    (lookback eb : ℕ) (row : BacktestRow)
    (hrow : row ∈ backtestRows r est lookback eb) :
    row.threshold ≤ 0 ∧ (row.exception = true → row.realized < 0) := by
  rw [backtestRows] at hrow
  rcases List.mem_filterMap.mp hrow with ⟨i, _, hsome⟩
  simp only at hsome
  by_cases hlen : (estWindow r lookback (r.length - eb + i)).length < 10
  · rw [if_pos hlen] at hsome
    exact absurd hsome (by simp)
  · rw [if_neg hlen] at hsome
    have hrow' := Option.some.inj hsome
    set v := est (estWindow r lookback (r.length - eb + i)) with hv
    have hthr : row.threshold = -(if v < 0 then |v| else v) := by
      rw [← hrow']
    have habs : 0 ≤ (if v < 0 then |v| else v) := by
      by_cases h : v < 0
      · rw [if_pos h]; exact abs_nonneg v
      · rw [if_neg h]; exact le_of_not_lt h
    constructor
    · rw [hthr]; linarith
    · intro hexc
      have hdec : (decide (r.getD (r.length - eb + i) 0
          < -(if v < 0 then |v| else v))) = true := by
        rw [← hrow'] at hexc
        exact hexc
      have hlt := of_decide_eq_true hdec
      have hreal : row.realized = r.getD (r.length - eb + i) 0 := by
        rw [← hrow']
      rw [hreal]
      linarith

/-- C10 witness. -/
theorem backtest_threshold_nonpositive_witness :
    (⟨-2, -1, true⟩ : BacktestRow).threshold ≤ 0 ∧
    ((⟨-2, -1, true⟩ : BacktestRow).exception = true →
      (⟨-2, -1, true⟩ : BacktestRow).realized < 0) := by
  refine backtest_threshold_nonpositive
    [0, 0, 0, 0, 0, 0, 0, 0, 0, 0, -2] (fun _ => 1) 10 1 ⟨-2, -1, true⟩ ?_
  rw [backtestRows]
  refine List.mem_filterMap.mpr ⟨0, by simp, ?_⟩
  have hwin : estWindow [0, 0, 0, 0, 0, 0, 0, 0, 0, 0, -2] 10
      (([0, 0, 0, 0, 0, 0, 0, 0, 0, 0, -2] : List ℝ).length - 1 + 0)
      = [0, 0, 0, 0, 0, 0, 0, 0, 0, 0] := by
    simp [estWindow]
  simp only [hwin]
  rw [if_neg (by simp)]
  have h1 : ¬((fun (_ : List ℝ) => (1 : ℝ)) [0, 0, 0, 0, 0, 0, 0, 0, 0, 0] < 0) := by
    norm_num
  rw [if_neg h1]
  have h2 : (([0, 0, 0, 0, 0, 0, 0, 0, 0, 0, -2] : List ℝ).getD
      (([0, 0, 0, 0, 0, 0, 0, 0, 0, 0, -2] : List ℝ).length - 1 + 0) 0) = -2 := by
    simp
  rw [h2]
  have h3 : (decide ((-2 : ℝ) < -1)) = true := decide_eq_true (by norm_num)
  simp only [h3]

/-- C2: horizon aggregation.  For `horizon_days > 1` the result is, per full
window of exactly `horizon_days` contiguous observations (partial windows
dropped), the window sum for log returns and the compounded
`prod (1 + r) - 1` for simple returns; in particular simple returns
`[0.01, 0.02]` at horizon 2 aggregate to `1.01 * 1.02 - 1` and log returns
`log 1.01, log 1.02` aggregate to their sum; for `horizon_days <= 1`
aggregation is the identity on the clean series. -/
theorem aggregate_horizon_spec :
    (∀ (data : List ℝ) (h : ℕ), 1 < h →
      aggregateReturns data ("log") h
        = (List.range (data.length + 1 - h)).map
            (fun i => ((data.drop i).take h).sum)) ∧
    (∀ (data : List ℝ) (h : ℕ), 1 < h →
      aggregateReturns data ("simple") h
        = (List.range (data.length + 1 - h)).map
            (fun i => ((((data.drop i).take h).map (fun r => 1 + r)).prod) - 1)) ∧
    aggregateReturns [1 / 100, 2 / 100] "simple" 2
        = [101 / 100 * (102 / 100) - 1] ∧
    aggregateReturns [Real.log (101 / 100), Real.log (102 / 100)] "log" 2
        = [Real.log (101 / 100) + Real.log (102 / 100)] ∧
    (∀ (data : List ℝ) (rt : String) (h : ℕ), h ≤ 1 →
      aggregateReturns data rt h = data) := by
  refine ⟨?_, ?_, ?_, ?_, ?_⟩
  · intro data h hh
    rw [aggregateReturns, if_neg (by omega)]
    simp
  · intro data h hh
    rw [aggregateReturns, if_neg (by omega)]
    simp
  · rw [aggregateReturns, if_neg (by omega)]
    have hs : ("simple" = "log") = False := by simp
    norm_num [List.range_succ, hs]
  · rw [aggregateReturns, if_neg (by omega)]
    norm_num [List.range_succ]
  · intro data rt h hh
    rw [aggregateReturns, if_pos hh]

/-- C2 witness. -/
theorem aggregate_horizon_spec_witness :
    aggregateReturns [(42 : ℝ)] "simple" 1 = [42] ∧
    aggregateReturns [(0 : ℝ), 0] "log" 2
      = (List.range (([(0 : ℝ), 0]).length + 1 - 2)).map
          (fun i => ((([(0 : ℝ), 0]).drop i).take 2).sum) :=
  ⟨aggregate_horizon_spec.2.2.2.2 [42] "simple" 1 (by omega),
   aggregate_horizon_spec.1 [0, 0] 2 (by omega)⟩

/-- C7: the Monte Carlo computation re-seeds the random state from the
explicit seed before drawing, so its returned value — VaR, CVaR, the full
simulated return distribution and the simulation count, and therefore the
histogram built from the simulated distribution — is independent of the
ambient random state: two calls with identical inputs and seed produce
identical results. -/
theorem monte_carlo_seed_deterministic {σ : Type} {k m : ℕ}
    (seedFn : ℕ → σ)
    (drawMVN : σ → (Fin k → ℝ) → (Fin k → Fin k → ℝ) → ℕ → List (Fin k → ℝ) × σ)
    (X : Fin k → Fin m → ℝ) (w : Fin k → ℝ) (confidence : ℝ)
    (horizonDays nSims seed : ℕ) (drift returnType : String) (s1 s2 : σ) :
    (monteCarloVarCvar seedFn drawMVN X w confidence horizonDays nSims seed
        drift returnType s1).1
      = (monteCarloVarCvar seedFn drawMVN X w confidence horizonDays nSims seed
        drift returnType s2).1 ∧
    buildHistogram (monteCarloVarCvar seedFn drawMVN X w confidence horizonDays
        nSims seed drift returnType s1).1.2.2.1 50
      = buildHistogram (monteCarloVarCvar seedFn drawMVN X w confidence
        horizonDays nSims seed drift returnType s2).1.2.2.1 50 :=
  ⟨rfl, rfl⟩

/-- C9: for a non-empty value array the weighted quantile falls back to the
plain numpy quantile when weights are absent, have a different length, or a
non-positive sum; and it fails on an empty value array regardless of
weights. -/
theorem weighted_quantile_fallbacks (values : List ℝ) (q : ℝ)
    (hne : values ≠ []) :
    weightedQuantile values none q = some (npQuantile values q) ∧
    (∀ w : List ℝ, w.length ≠ values.length →
        weightedQuantile values (some w) q = some (npQuantile values q)) ∧
    (∀ w : List ℝ, w.sum ≤ 0 →
        weightedQuantile values (some w) q = some (npQuantile values q)) ∧
    (∀ ws : Option (List ℝ), weightedQuantile [] ws q = none) := by
  have hE : values.isEmpty = false := by
    cases values with
    | nil => exact absurd rfl hne
    | cons a l => rfl
  refine ⟨?_, ?_, ?_, ?_⟩
  · rw [weightedQuantile.eq_def, hE]
    rfl
  · intro w hw
    rw [weightedQuantile.eq_def, hE]
    simp only [Bool.false_eq_true, if_false]
    rw [if_pos (Or.inl hw)]
  · intro w hw
    rw [weightedQuantile.eq_def, hE]
    simp only [Bool.false_eq_true, if_false]
    rw [if_pos (Or.inr hw)]
  · intro ws
    rw [weightedQuantile.eq_def]
    rfl

/-- C9 witness. -/
theorem weighted_quantile_fallbacks_witness :
    weightedQuantile [(5 : ℝ)] none (1 / 2) = some (npQuantile [5] (1 / 2)) ∧
    weightedQuantile [(5 : ℝ)] (some []) (1 / 2)
      = some (npQuantile [5] (1 / 2)) ∧
    weightedQuantile [(5 : ℝ)] (some [-1]) (1 / 2)
      = some (npQuantile [5] (1 / 2)) ∧
    weightedQuantile ([] : List ℝ) (some [1]) (1 / 2) = none :=
  ⟨(weighted_quantile_fallbacks [5] (1 / 2) (by simp)).1,
   (weighted_quantile_fallbacks [5] (1 / 2) (by simp)).2.1 [] (by simp),
   (weighted_quantile_fallbacks [5] (1 / 2) (by simp)).2.2.1 [-1] (by norm_num),
   (weighted_quantile_fallbacks [5] (1 / 2) (by simp)).2.2.2 (some [1])⟩

/-- C4: the Kupiec proportion-of-failures test.  For an empty sample the
statistic is null; otherwise, with both the expected rate `1 - confidence`
and the observed rate `x / n` clamped into `[eps, 1 - eps]`, the statistic
is `LR = -2 * (x log p + (n - x) log (1 - p) - x log r - (n - x) log (1 - r))`
and the p-value is `1 - chi2cdf LR` for the chi-square cdf with one degree
of freedom; in particular for n = 100, confidence 0.95 and x = 5 exceptions
the rates coincide, LR = 0 and the p-value is 1. -/
theorem kupiec_pof_spec (chi2cdf : ℝ → ℝ) (hcdf : chi2cdf 0 = 0) :
    (∀ (x : ℕ) (c e : ℝ), kupiecPofTest chi2cdf 0 x c e = none) ∧
    (∀ (n x : ℕ) (c e : ℝ), n ≠ 0 →
      kupiecPofTest chi2cdf n x c e
        = some (-2 * ((x : ℝ) * Real.log (max e (min (1 - e) (1 - c)))
              + ((n : ℝ) - x) * Real.log (1 - max e (min (1 - e) (1 - c)))
              - (x : ℝ) * Real.log (max e (min (1 - e) ((x : ℝ) / n)))
              - ((n : ℝ) - x) * Real.log (1 - max e (min (1 - e) ((x : ℝ) / n)))),
            1 - chi2cdf (-2 * ((x : ℝ) * Real.log (max e (min (1 - e) (1 - c)))
              + ((n : ℝ) - x) * Real.log (1 - max e (min (1 - e) (1 - c)))
              - (x : ℝ) * Real.log (max e (min (1 - e) ((x : ℝ) / n)))
              - ((n : ℝ) - x) * Real.log (1 - max e (min (1 - e) ((x : ℝ) / n))))))) ∧
    kupiecPofTest chi2cdf 100 5 (95 / 100) (1 / 1000000) = some (0, 1) := by
  refine ⟨?_, ?_, ?_⟩
  · intro x c e
    rw [kupiecPofTest, if_pos rfl]
  · intro n x c e hn
    rw [kupiecPofTest, if_neg hn]
  · rw [kupiecPofTest, if_neg (by omega)]
    have hclamp : max (1 / 1000000 : ℝ) (min (1 - 1 / 1000000) (1 - 95 / 100))
        = 1 / 20 := by
      rw [min_eq_right (by norm_num), max_eq_right (by norm_num)]
      norm_num
    have hclamp2 : max (1 / 1000000 : ℝ)
        (min (1 - 1 / 1000000) (((5 : ℕ) : ℝ) / ((100 : ℕ) : ℝ))) = 1 / 20 := by
      rw [min_eq_right (by norm_num), max_eq_right (by norm_num)]
      norm_num
    rw [hclamp, hclamp2]
    have hlr : -2 * ((((5 : ℕ) : ℝ)) * Real.log (1 / 20)
        + (((100 : ℕ) : ℝ) - ((5 : ℕ) : ℝ)) * Real.log (1 - 1 / 20)
        - (((5 : ℕ) : ℝ)) * Real.log (1 / 20)
        - (((100 : ℕ) : ℝ) - ((5 : ℕ) : ℝ)) * Real.log (1 - 1 / 20)) = 0 := by
      ring
    simp only [hlr, hcdf]
    norm_num

/-- C3: component VaR additivity.  Whenever the portfolio variance
`w^T Sigma w` of the asset return frame is positive (the case in which
component VaR is produced), the per-asset component VaR values of the
parametric-normal decomposition sum exactly to the total parametric-normal
VaR of the weighted portfolio return series — in particular within the 5
percent relative tolerance of the claim; and `component_var_normal` returns
null whenever the portfolio variance is non-positive.  Stated at the
default horizon of one day with drift ignored, as `compute_var` invokes
both functions. -/
theorem component_var_additivity (D : Dists) {k m : ℕ}
    (X : Fin k → Fin m → ℝ) (w : Fin k → ℝ) (confidence : ℝ) :
    (∀ _ : 0 < ∑ i, ∑ j, w i * sampleCov (X i) (X j) * w j,
      ∃ comps, componentVarNormal D.normPpf X w confidence 1 = some comps ∧
        (comps.map ComponentEntry.componentVar).sum
          = (parametricVarCvar D (List.ofFn fun t => ∑ i, w i * X i t)
              confidence ("normal") ("ignore")).1 ∧
        |(comps.map ComponentEntry.componentVar).sum
            - (parametricVarCvar D (List.ofFn fun t => ∑ i, w i * X i t)
                confidence ("normal") ("ignore")).1|
          ≤ 5 / 100 * |(parametricVarCvar D (List.ofFn fun t => ∑ i, w i * X i t)
              confidence ("normal") ("ignore")).1|) ∧
    (∀ _ : (∑ i, ∑ j, w i * sampleCov (X i) (X j) * w j) ≤ 0,
      componentVarNormal D.normPpf X w confidence 1 = none) := by
  have hcov1 : ∀ i j, sampleCov (X i) (X j) * ((1 : ℕ) : ℝ)
      = sampleCov (X i) (X j) := by
    intro i j
    rw [Nat.cast_one, mul_one]
  have hPVdef : (∑ i, ∑ j, w i * (sampleCov (X i) (X j) * ((1 : ℕ) : ℝ)) * w j)
      = ∑ i, ∑ j, w i * sampleCov (X i) (X j) * w j := by
    refine Finset.sum_congr rfl fun i _ => Finset.sum_congr rfl fun j _ => ?_
    rw [hcov1]
  constructor
  · intro hpos
    have hknz : ¬(k = 0 ∨ m = 0) := by
      rintro (hk | hm)
      · subst hk
        simp at hpos
      · subst hm
        have hz : (∑ i : Fin k, ∑ j : Fin k,
            w i * sampleCov (X i) (X j) * w j) = 0 := by
          refine Finset.sum_eq_zero fun i _ => Finset.sum_eq_zero fun j _ => ?_
          simp [sampleCov]
        rw [hz] at hpos
        exact absurd hpos (lt_irrefl 0)
    rw [componentVarNormal]
    simp only [hcov1]
    set PV := ∑ i, ∑ j, w i * sampleCov (X i) (X j) * w j with hPV
    have hσpos : 0 < Real.sqrt PV := Real.sqrt_pos.mpr hpos
    have hσne : Real.sqrt PV ≠ 0 := ne_of_gt hσpos
    -- evaluate the total parametric-normal VaR of the portfolio series
    have hstd : listStd (List.ofFn fun t => ∑ i, w i * X i t) = Real.sqrt PV := by
      rw [listStd, listSampleVar_ofFn, sampleCov_weighted_self, ← hPV]
    have hpar : (parametricVarCvar D (List.ofFn fun t => ∑ i, w i * X i t)
        confidence ("normal") ("ignore")).1
          = -(D.normPpf (1 - confidence)) * Real.sqrt PV := by
      rw [parametricVarCvar]
      simp only [hstd]
      rw [if_neg (not_le.mpr hσpos), if_neg (by simp)]
      have hdrift : (("ignore" : String) = "include") = False := by simp
      simp only [hdrift, if_false]
      ring
    -- evaluate the component decomposition
    rw [if_neg hknz, if_neg (not_le.mpr hpos)]
    refine ⟨_, rfl, ?_⟩
    have hsum : ((List.ofFn fun i =>
        (⟨w i, -(D.normPpf (1 - confidence))
            * ((∑ j, sampleCov (X i) (X j) * w j) / Real.sqrt PV),
          w i * (-(D.normPpf (1 - confidence))
            * ((∑ j, sampleCov (X i) (X j) * w j) / Real.sqrt PV))⟩
          : ComponentEntry)).map ComponentEntry.componentVar).sum
        = -(D.normPpf (1 - confidence)) * Real.sqrt PV := by
      rw [List.map_ofFn, List.sum_ofFn]
      have hterm : ∀ i : Fin k,
          (ComponentEntry.componentVar ∘ fun i =>
            (⟨w i, -(D.normPpf (1 - confidence))
                * ((∑ j, sampleCov (X i) (X j) * w j) / Real.sqrt PV),
              w i * (-(D.normPpf (1 - confidence))
                * ((∑ j, sampleCov (X i) (X j) * w j) / Real.sqrt PV))⟩
              : ComponentEntry)) i
          = (-(D.normPpf (1 - confidence)) / Real.sqrt PV)
              * (w i * (∑ j, sampleCov (X i) (X j) * w j)) := by
        intro i
        simp only [Function.comp]
        ring
      rw [Finset.sum_congr rfl fun i _ => hterm i, ← Finset.mul_sum]
      have hWA : (∑ i, w i * (∑ j, sampleCov (X i) (X j) * w j)) = PV := by
        rw [hPV]
        refine Finset.sum_congr rfl fun i _ => ?_
        rw [Finset.mul_sum]
        exact Finset.sum_congr rfl fun j _ => (mul_assoc _ _ _).symm
      rw [hWA]
      have hPVsq : PV = Real.sqrt PV * Real.sqrt PV :=
        (Real.mul_self_sqrt hpos.le).symm
      field_simp
      rw [mul_assoc, ← hPVsq]
    constructor
    · rw [hsum, hpar]
    · rw [hsum, hpar]
      simp only [sub_self, abs_zero]
      positivity
  · intro hneg
    rw [componentVarNormal]
    by_cases hkm : k = 0 ∨ m = 0
    · rw [if_pos hkm]
    · rw [if_neg hkm]
      simp only [hcov1]
      rw [if_pos hneg]

/-- C3 witness: one asset with returns (0, 2), unit weight; the sample
variance is 2 > 0. -/
theorem component_var_additivity_witness :
    (∃ comps, componentVarNormal
        ((⟨fun _ => -2, fun _ => 0, fun _ => (0, 0, 0), fun _ _ => 0,
           fun _ _ => 0⟩ : Dists)).normPpf
        (fun (_ : Fin 1) => (![0, 2] : Fin 2 → ℝ)) (fun _ => 1) (95 / 100) 1
        = some comps ∧
      (comps.map ComponentEntry.componentVar).sum
        = (parametricVarCvar
            ((⟨fun _ => -2, fun _ => 0, fun _ => (0, 0, 0), fun _ _ => 0,
               fun _ _ => 0⟩ : Dists))
            (List.ofFn fun t => ∑ i : Fin 1, (fun _ => (1 : ℝ)) i
              * (fun (_ : Fin 1) => (![0, 2] : Fin 2 → ℝ)) i t)
            (95 / 100) "normal" "ignore").1 ∧
      |(comps.map ComponentEntry.componentVar).sum
          - (parametricVarCvar
              ((⟨fun _ => -2, fun _ => 0, fun _ => (0, 0, 0), fun _ _ => 0,
                 fun _ _ => 0⟩ : Dists))
              (List.ofFn fun t => ∑ i : Fin 1, (fun _ => (1 : ℝ)) i
                * (fun (_ : Fin 1) => (![0, 2] : Fin 2 → ℝ)) i t)
              (95 / 100) "normal" "ignore").1|
        ≤ 5 / 100 * |(parametricVarCvar
            ((⟨fun _ => -2, fun _ => 0, fun _ => (0, 0, 0), fun _ _ => 0,
               fun _ _ => 0⟩ : Dists))
            (List.ofFn fun t => ∑ i : Fin 1, (fun _ => (1 : ℝ)) i
              * (fun (_ : Fin 1) => (![0, 2] : Fin 2 → ℝ)) i t)
            (95 / 100) "normal" "ignore").1|) ∧
    componentVarNormal trivDists.normPpf
      (fun (_ : Fin 1) (_ : Fin 2) => (0 : ℝ)) (fun _ => 1) (95 / 100) 1
      = none := by
  constructor
  · refine (component_var_additivity _ _ _ _).1 ?_
    have hcv : sampleCov (![0, 2] : Fin 2 → ℝ) (![0, 2] : Fin 2 → ℝ) = 2 := by
      rw [sampleCov, sampleMean]
      norm_num [Fin.sum_univ_two]
    simp [Fin.sum_univ_one, hcv]
  · refine (component_var_additivity trivDists
        (fun (_ : Fin 1) (_ : Fin 2) => (0 : ℝ)) (fun _ => 1) (95 / 100)).2 ?_
    have hcv0 : sampleCov (fun (_ : Fin 2) => (0 : ℝ))
        (fun (_ : Fin 2) => (0 : ℝ)) = 0 := by
      rw [sampleCov, sampleMean]
      norm_num [Fin.sum_univ_two]
    simp [Fin.sum_univ_one, hcv0]

/-- C8: the risk-contribution block.  With positive annualized portfolio
variance, each marginal contribution is `(Sigma_ann w)_i / sigma_p`, each
component contribution `w_i * marginal_i`, each percentage contribution
`component_i / sigma_p`, and the percentage contributions sum to 1; with
zero portfolio variance every marginal, component and percentage
contribution is reported as exactly 0. -/
theorem risk_contribution_decomposition {k m : ℕ} (X : Fin k → Fin m → ℝ)
    (w : Fin k → ℝ) (annDays : ℕ) :
    (∀ _ : 0 < portVarAnn X w annDays,
      riskContributions X w annDays
        = List.ofFn (fun i =>
            ⟨w i,
              (∑ j, sampleCov (X i) (X j) * (annDays : ℝ) * w j)
                / Real.sqrt (portVarAnn X w annDays),
              w i * ((∑ j, sampleCov (X i) (X j) * (annDays : ℝ) * w j)
                / Real.sqrt (portVarAnn X w annDays)),
              (w i * ((∑ j, sampleCov (X i) (X j) * (annDays : ℝ) * w j)
                / Real.sqrt (portVarAnn X w annDays)))
                / Real.sqrt (portVarAnn X w annDays)⟩) ∧
      ((riskContributions X w annDays).map ContributionEntry.pctCctr).sum = 1) ∧
    (∀ _ : portVarAnn X w annDays = 0,
      ∀ e ∈ riskContributions X w annDays,
        e.mctr = 0 ∧ e.cctr = 0 ∧ e.pctCctr = 0) := by
  constructor
  · intro hpos
    have hσpos : 0 < Real.sqrt (portVarAnn X w annDays) := Real.sqrt_pos.mpr hpos
    have hentries : riskContributions X w annDays
        = List.ofFn (fun i =>
            (⟨w i,
              (∑ j, sampleCov (X i) (X j) * (annDays : ℝ) * w j)
                / Real.sqrt (portVarAnn X w annDays),
              w i * ((∑ j, sampleCov (X i) (X j) * (annDays : ℝ) * w j)
                / Real.sqrt (portVarAnn X w annDays)),
              (w i * ((∑ j, sampleCov (X i) (X j) * (annDays : ℝ) * w j)
                / Real.sqrt (portVarAnn X w annDays)))
                / Real.sqrt (portVarAnn X w annDays)⟩ : ContributionEntry)) := by
      rw [riskContributions]
      simp only [if_pos hpos, if_pos hσpos]
    refine ⟨hentries, ?_⟩
    rw [hentries, List.map_ofFn, List.sum_ofFn]
    have hterm : ∀ i : Fin k,
        (ContributionEntry.pctCctr ∘ fun i =>
          (⟨w i,
            (∑ j, sampleCov (X i) (X j) * (annDays : ℝ) * w j)
              / Real.sqrt (portVarAnn X w annDays),
            w i * ((∑ j, sampleCov (X i) (X j) * (annDays : ℝ) * w j)
              / Real.sqrt (portVarAnn X w annDays)),
            (w i * ((∑ j, sampleCov (X i) (X j) * (annDays : ℝ) * w j)
              / Real.sqrt (portVarAnn X w annDays)))
              / Real.sqrt (portVarAnn X w annDays)⟩ : ContributionEntry)) i
        = (w i * (∑ j, sampleCov (X i) (X j) * (annDays : ℝ) * w j))
            / (Real.sqrt (portVarAnn X w annDays)
              * Real.sqrt (portVarAnn X w annDays)) := by
      intro i
      simp only [Function.comp]
      ring
    rw [Finset.sum_congr rfl fun i _ => hterm i,
      Real.mul_self_sqrt hpos.le, ← Finset.sum_div]
    have hWA : (∑ i, w i * (∑ j, sampleCov (X i) (X j) * (annDays : ℝ) * w j))
        = portVarAnn X w annDays := by
      rw [portVarAnn]
      refine Finset.sum_congr rfl fun i _ => ?_
      rw [Finset.mul_sum]
      exact Finset.sum_congr rfl fun j _ => (mul_assoc _ _ _).symm
    rw [hWA]
    exact div_self (ne_of_gt hpos)
  · intro hz e he
    rw [riskContributions] at he
    rw [hz] at he
    simp only [lt_self_iff_false, if_false] at he
    rcases (List.mem_ofFn _ _).mp he with ⟨i, hi⟩
    rw [← hi]
    exact ⟨rfl, rfl, rfl⟩

/-- C8 witness: clause one at a single asset with returns (0, 2) and unit
weight (annualized variance 2), clause two at a constant-return asset
(variance 0). -/
theorem risk_contribution_decomposition_witness :
    ((riskContributions (fun (_ : Fin 1) => (![0, 2] : Fin 2 → ℝ))
        (fun _ => 1) 1).map ContributionEntry.pctCctr).sum = 1 ∧
    (∀ e ∈ riskContributions (fun (_ : Fin 1) (_ : Fin 2) => (0 : ℝ))
        (fun _ => 1) 1, e.mctr = 0 ∧ e.cctr = 0 ∧ e.pctCctr = 0) := by
  constructor
  · refine ((risk_contribution_decomposition
        (fun (_ : Fin 1) => (![0, 2] : Fin 2 → ℝ)) (fun _ => 1) 1).1 ?_).2
    have hcv : sampleCov (![0, 2] : Fin 2 → ℝ) (![0, 2] : Fin 2 → ℝ) = 2 := by
      rw [sampleCov, sampleMean]
      norm_num [Fin.sum_univ_two]
    rw [portVarAnn]
    simp [Fin.sum_univ_one, hcv]
  · refine (risk_contribution_decomposition
        (fun (_ : Fin 1) (_ : Fin 2) => (0 : ℝ)) (fun _ => 1) 1).2 ?_
    have hcv0 : sampleCov (fun (_ : Fin 2) => (0 : ℝ))
        (fun (_ : Fin 2) => (0 : ℝ)) = 0 := by
      rw [sampleCov, sampleMean]
      norm_num [Fin.sum_univ_two]
    rw [portVarAnn]
    simp [Fin.sum_univ_one, hcv0]

/-- C5: the weighted quantile at values (1, 2, 3, 4) with weights
(0.1, 0.2, 0.3, 0.4) and alpha = 0.5.  The cumulative distribution is
(0.1, 0.3, 0.6, 1.0) and linear interpolation at 0.5 between the points
(0.3, 2) and (0.6, 3) gives 8/3, not the 3.0 that the specification and the
repository test assert: the code disagrees with its own test on this
input. -/
theorem weighted_quantile_code_value :
    weightedQuantile [1, 2, 3, 4] (some [1 / 10, 2 / 10, 3 / 10, 4 / 10])
        (1 / 2) = some (8 / 3) ∧ (8 / 3 : ℝ) ≠ 3 := by
  constructor
  · rw [weightedQuantile.eq_def]
    norm_num [sortPairs, insertPair, cumsum, cumsumFrom, interp, max_def]
  · norm_num

/-- C6 counterexample: compute_var called with the unknown parametric
distribution name cauchy on a valid sample returns a result instead of
failing with an invalid-parameter error (the distribution falls through to
the normal branch of parametric_var_cvar). -/
theorem compute_var_unknown_dist_returns_ok :
    (computeVar trivDists unitSeed unitDraw [0, 0] none none ("parametric")
      (95 / 100) none 10000 42 ("simple") 1 ("ignore") ("cauchy") ("none") (94 / 100)
      none 250 ()).isOk = true := rfl

/-- C6 (amended): compute_var fails with the invalid-parameter error for an
unknown method name, with the insufficient-data error when the aggregated
return sample is empty, and with the missing-input error when Monte Carlo
is requested without per-asset returns or without weights; in every other
case — a known method, a non-empty aggregated sample, and for Monte Carlo
both asset returns and weights present — it returns a result rather than
raising; an unknown parametric distribution name, however, is not
rejected: parametric estimation treats every distribution other than
student_t as normal, so it yields a result, not an invalid-parameter
error. -/
theorem compute_var_error_conditions {σ : Type} {k : ℕ} (D : Dists)
    (seedFn : ℕ → σ)
    (drawMVN : σ → (Fin k → ℝ) → (Fin k → Fin k → ℝ) → ℕ → List (Fin k → ℝ) × σ)
    (portfolioReturns : List ℝ) (assetReturns : Option (List (Fin k → ℝ)))
    (weights : Option (Fin k → ℝ)) (method : String) (confidence : ℝ)
    (lookback : Option ℕ) (mcSims seed : ℕ) (returnType : String)
    (horizonDays : ℕ) (drift parametricDist hsWeighting : String)
    (hsLambda : ℝ) (portfolioValue : Option ℝ) (rollingWindow : ℕ)
    (rngState : σ) :
    (method ≠ "historical" → method ≠ "parametric" → method ≠ "monte_carlo" →
      aggregateReturns (listTail portfolioReturns
          (effectiveLookbackOf lookback portfolioReturns.length))
          returnType horizonDays ≠ [] →
      computeVar D seedFn drawMVN portfolioReturns assetReturns weights method
          confidence lookback mcSims seed returnType horizonDays drift
          parametricDist hsWeighting hsLambda portfolioValue rollingWindow rngState
        = .error ("Unknown VaR method: " ++ method)) ∧
    (aggregateReturns (listTail portfolioReturns
          (effectiveLookbackOf lookback portfolioReturns.length))
          returnType horizonDays = [] →
      computeVar D seedFn drawMVN portfolioReturns assetReturns weights method
          confidence lookback mcSims seed returnType horizonDays drift
          parametricDist hsWeighting hsLambda portfolioValue rollingWindow rngState
        = .error ("Insufficient return data for VaR calculation")) ∧
    (method = "monte_carlo" → (assetReturns = none ∨ weights = none) →
      aggregateReturns (listTail portfolioReturns
          (effectiveLookbackOf lookback portfolioReturns.length))
          returnType horizonDays ≠ [] →
      computeVar D seedFn drawMVN portfolioReturns assetReturns weights method
          confidence lookback mcSims seed returnType horizonDays drift
          parametricDist hsWeighting hsLambda portfolioValue rollingWindow rngState
        = .error ("Monte Carlo requires asset_returns and weights")) ∧
    (parametricDist ≠ "student_t" →
      computeVar D seedFn drawMVN portfolioReturns assetReturns weights method
          confidence lookback mcSims seed returnType horizonDays drift
          parametricDist hsWeighting hsLambda portfolioValue rollingWindow rngState
        = computeVar D seedFn drawMVN portfolioReturns assetReturns weights method
          confidence lookback mcSims seed returnType horizonDays drift
          "normal" hsWeighting hsLambda portfolioValue rollingWindow rngState) ∧
    ((method = "historical" ∨ method = "parametric" ∨ method = "monte_carlo") →
      aggregateReturns (listTail portfolioReturns
          (effectiveLookbackOf lookback portfolioReturns.length))
          returnType horizonDays ≠ [] →
      (method = "monte_carlo" → assetReturns ≠ none ∧ weights ≠ none) →
      (computeVar D seedFn drawMVN portfolioReturns assetReturns weights method
          confidence lookback mcSims seed returnType horizonDays drift
          parametricDist hsWeighting hsLambda portfolioValue rollingWindow
          rngState).isOk = true) := by
  refine ⟨?_, ?_, ?_, ?_, ?_⟩
  · intro h1 h2 h3 hne
    have hE := List.isEmpty_eq_false.mpr hne
    rw [computeVar]
    simp only [hE, Bool.false_eq_true, if_false, if_neg h1, if_neg h2, if_neg h3]
  · intro hempty
    rw [computeVar]
    simp only [hempty, List.isEmpty_nil, if_true]
  · intro hmc hmiss hne
    have hE := List.isEmpty_eq_false.mpr hne
    subst hmc
    have hs1 : (("monte_carlo" : String) = "historical") = False := by simp
    have hs2 : (("monte_carlo" : String) = "parametric") = False := by simp
    have hs3 : (("monte_carlo" : String) = "monte_carlo") = True := by simp
    rcases hmiss with hA | hW
    · subst hA
      rw [computeVar]
      simp only [hE, Bool.false_eq_true, if_false, hs1, hs2, hs3, if_true,
        Option.map_none', true_or, if_true]
    · subst hW
      rw [computeVar]
      simp only [hE, Bool.false_eq_true, if_false, hs1, hs2, hs3, if_true,
        or_true, if_true]
  · intro hd
    have hfb : ∀ (rets : List ℝ) (conf : ℝ) (dr : String),
        parametricVarCvar D rets conf parametricDist dr
          = parametricVarCvar D rets conf ("normal") dr :=
      fun rets conf dr => parametricVarCvar_dist_fallback D rets conf _ dr hd
    simp only [computeVar, rollingVarSeries, hfb]
  · rintro (hm | hm | hm) hne hmc
    · -- historical: the quantile never fails on a non-empty sample
      have hE := List.isEmpty_eq_false.mpr hne
      subst hm
      obtain ⟨p, hp⟩ := historicalVarCvar_isSome
        (aggregateReturns (listTail portfolioReturns
          (effectiveLookbackOf lookback portfolioReturns.length))
          returnType horizonDays) confidence hsWeighting hsLambda hne
      have hs1 : (("historical" : String) = "historical") = True := by simp
      rw [computeVar]
      simp only [hE, Bool.false_eq_true, if_false, hs1, if_true, hp]
      rfl
    · -- parametric: always total
      have hE := List.isEmpty_eq_false.mpr hne
      subst hm
      have hs1 : (("parametric" : String) = "historical") = False := by simp
      have hs2 : (("parametric" : String) = "parametric") = True := by simp
      rw [computeVar]
      simp only [hE, Bool.false_eq_true, if_false, hs1, hs2, if_true]
      rfl
    · -- monte carlo with both inputs present
      have hE := List.isEmpty_eq_false.mpr hne
      subst hm
      obtain ⟨hA, hW⟩ := hmc rfl
      obtain ⟨rows, hrows⟩ := Option.ne_none_iff_exists'.mp hA
      obtain ⟨w, hw⟩ := Option.ne_none_iff_exists'.mp hW
      subst hrows
      subst hw
      have hs1 : (("monte_carlo" : String) = "historical") = False := by simp
      have hs2 : (("monte_carlo" : String) = "parametric") = False := by simp
      have hs3 : (("monte_carlo" : String) = "monte_carlo") = True := by simp
      rw [computeVar]
      simp only [hE, Bool.false_eq_true, if_false, hs1, hs2, hs3, if_true,
        Option.map_some']
      rw [if_neg (by simp)]
      rfl

/-- C6 witness. -/
theorem compute_var_error_conditions_witness :
    computeVar trivDists unitSeed unitDraw [0, 0] none none ("quantum")
        (95 / 100) none 10000 42 ("simple") 1 ("ignore") ("normal") ("none")
        (94 / 100) none 250 ()
      = .error ("Unknown VaR method: " ++ "quantum") ∧
    computeVar trivDists unitSeed unitDraw [] none none ("historical")
        (95 / 100) none 10000 42 ("simple") 1 ("ignore") ("normal") ("none")
        (94 / 100) none 250 ()
      = .error ("Insufficient return data for VaR calculation") ∧
    computeVar trivDists unitSeed unitDraw [0, 0] none none ("monte_carlo")
        (95 / 100) none 10000 42 ("simple") 1 ("ignore") ("normal") ("none")
        (94 / 100) none 250 ()
      = .error ("Monte Carlo requires asset_returns and weights") ∧
    computeVar trivDists unitSeed unitDraw [0, 0] none none ("parametric")
        (95 / 100) none 10000 42 ("simple") 1 ("ignore") ("weibull") ("none")
        (94 / 100) none 250 ()
      = computeVar trivDists unitSeed unitDraw [0, 0] none none ("parametric")
        (95 / 100) none 10000 42 ("simple") 1 ("ignore") ("normal") ("none")
        (94 / 100) none 250 () ∧
    (computeVar trivDists unitSeed unitDraw [0, 0] none none ("parametric")
        (95 / 100) none 10000 42 ("simple") 1 ("ignore") ("normal") ("none")
        (94 / 100) none 250 ()).isOk = true ∧
    (computeVar trivDists unitSeed unitDraw [0, 0] none none ("historical")
        (95 / 100) none 10000 42 ("simple") 1 ("ignore") ("normal") ("none")
        (94 / 100) none 250 ()).isOk = true ∧
    (computeVar trivDists unitSeed unitDraw [0, 0]
        (some [fun _ => 0, fun _ => 0]) (some (fun _ => 1)) ("monte_carlo")
        (95 / 100) none 10000 42 ("simple") 1 ("ignore") ("normal") ("none")
        (94 / 100) none 250 ()).isOk = true := by
  refine ⟨?_, ?_, ?_, ?_, ?_, ?_, ?_⟩
  · exact (compute_var_error_conditions trivDists unitSeed unitDraw [0, 0]
      none none ("quantum") (95 / 100) none 10000 42 ("simple") 1 ("ignore")
      ("normal") ("none") (94 / 100) none 250 ()).1
      (by decide) (by decide) (by decide)
      (by simp [aggregateReturns, listTail, effectiveLookbackOf])
  · exact (compute_var_error_conditions trivDists unitSeed unitDraw []
      none none ("historical") (95 / 100) none 10000 42 ("simple") 1 ("ignore")
      ("normal") ("none") (94 / 100) none 250 ()).2.1
      (by simp [aggregateReturns, listTail, effectiveLookbackOf])
  · exact (compute_var_error_conditions trivDists unitSeed unitDraw [0, 0]
      none none ("monte_carlo") (95 / 100) none 10000 42 ("simple") 1 ("ignore")
      ("normal") ("none") (94 / 100) none 250 ()).2.2.1
      rfl (Or.inl rfl) (by simp [aggregateReturns, listTail, effectiveLookbackOf])
  · exact (compute_var_error_conditions trivDists unitSeed unitDraw [0, 0]
      none none ("parametric") (95 / 100) none 10000 42 ("simple") 1 ("ignore")
      ("weibull") ("none") (94 / 100) none 250 ()).2.2.2.1 (by decide)
  · exact (compute_var_error_conditions trivDists unitSeed unitDraw [0, 0]
      none none ("parametric") (95 / 100) none 10000 42 ("simple") 1 ("ignore")
      ("normal") ("none") (94 / 100) none 250 ()).2.2.2.2
      (Or.inr (Or.inl rfl))
      (by simp [aggregateReturns, listTail, effectiveLookbackOf])
      (by intro h; exact absurd h (by decide))
  · exact (compute_var_error_conditions trivDists unitSeed unitDraw [0, 0]
      none none ("historical") (95 / 100) none 10000 42 ("simple") 1 ("ignore")
      ("normal") ("none") (94 / 100) none 250 ()).2.2.2.2
      (Or.inl rfl)
      (by simp [aggregateReturns, listTail, effectiveLookbackOf])
      (by intro h; exact absurd h (by decide))
  · exact (compute_var_error_conditions trivDists unitSeed unitDraw [0, 0]
      (some [fun _ => 0, fun _ => 0]) (some (fun _ => 1)) ("monte_carlo")
      (95 / 100) none 10000 42 ("simple") 1 ("ignore") ("normal") ("none")
      (94 / 100) none 250 ()).2.2.2.2
      (Or.inr (Or.inr rfl))
      (by simp [aggregateReturns, listTail, effectiveLookbackOf])
      (fun _ => ⟨by simp, by simp⟩)

/-- C4 witness. -/
theorem kupiec_pof_spec_witness :
    kupiecPofTest (fun _ => 0) 100 5 (95 / 100) (1 / 1000000) = some (0, 1) ∧
    kupiecPofTest (fun _ => 0) 0 7 (1 / 2) (1 / 1000000) = none :=
  ⟨(kupiec_pof_spec (fun _ => 0) rfl).2.2,
   (kupiec_pof_spec (fun _ => 0) rfl).1 7 (1 / 2) (1 / 1000000)⟩

end MarketRisk
